import Mathlib

set_option maxRecDepth 4000

/-!
Shallow embedding of `crates/dekaf/src/topology.rs`: the topology-translation
core mapping Flow collections onto Kafka-style topics.  Network effects
(the postgrest metadata store, the gazette broker) are passed in explicitly:
each embedded operation takes the responses (or response functions) of the
external services it consults, and otherwise mirrors the Rust control flow.
-/

namespace Dekaf

/-! ### Orderings

Rust compares `i64` and `String` with `Ord::cmp`; `String` order is
byte-lexicographic, which on valid UTF-8 agrees with lexicographic order of
Unicode scalar values.  We embed both comparators structurally. -/

/-- Rust `Ord::cmp` on `i64`, as a three-way comparison on `Int`. -/
def cmp_i64 (a b : Int) : Ordering :=
  if a < b then Ordering.lt else if a = b then Ordering.eq else Ordering.gt

/-- Strict order on `Char` by Unicode scalar value (= Rust byte order on
valid UTF-8 when lifted to lexicographic string order). -/
def charLt (a b : Char) : Prop := a.toNat < b.toNat

instance : DecidableRel charLt := fun a b =>
  inferInstanceAs (Decidable (a.toNat < b.toNat))

/-- Rust `Ord::cmp` on strings viewed as their character lists. -/
def str_cmp_chars : List Char → List Char → Ordering
  | [], [] => Ordering.eq
  | [], _ :: _ => Ordering.lt
  | _ :: _, [] => Ordering.gt
  | a :: as, b :: bs =>
    if a.toNat < b.toNat then Ordering.lt
    else if b.toNat < a.toNat then Ordering.gt
    else str_cmp_chars as bs

/-- Rust `Ord::cmp` on `String` (byte-lexicographic). -/
def str_cmp (a b : String) : Ordering := str_cmp_chars a.data b.data

/-! ### Broker data model (`gazette::broker`), restricted to the fields
`topology.rs` consults. -/

/-- Model of `broker::JournalSpec`: only `name` is consulted by this module. -/
structure JournalSpec where
  name : String
  deriving DecidableEq

/-- Model of `broker::Route`: contents are never consulted by this module, only
presence; we retain the primary member index. -/
structure Route where
  primary : Int
  deriving DecidableEq

/-- One journal of a `broker::ListResponse`: spec, creation/modification
revisions, and route.  `spec` and `route` are optional on the wire. -/
structure ListedJournal where
  spec : Option JournalSpec
  create_revision : Int
  mod_revision : Int
  route : Option Route
  deriving DecidableEq

/-- Structure `Partition` from `topology.rs`: a collection journal mapped into a
stable Kafka partition order. -/
structure Partition where
  create_revision : Int
  spec : JournalSpec
  _mod_revision : Int
  _route : Route
  deriving DecidableEq

/-- The comparator of `Collection::fetch_partitions`:
`(l.create_revision, &l.spec.name).cmp(&(r.create_revision, &r.spec.name))`. -/
def partition_cmp (l r : Partition) : Ordering :=
  match cmp_i64 l.create_revision r.create_revision with
  | Ordering.eq => str_cmp l.spec.name r.spec.name
  | o => o

/-- The non-strict order a comparator-based stable sort establishes:
`partition_cmp l r ≠ Greater`. -/
def partition_le (l r : Partition) : Prop := partition_cmp l r ≠ Ordering.gt

instance : DecidableRel partition_le := fun l r =>
  inferInstanceAs (Decidable (partition_cmp l r ≠ Ordering.gt))

/-- Body of the `for journal in response.journals` loop of
`fetch_partitions`: a journal must carry a spec and a route, in that order
of checks. -/
def journal_to_partition (j : ListedJournal) : Except String Partition :=
  match j.spec with
  | none => Except.error "expected journal Spec"
  | some spec =>
    match j.route with
    | none => Except.error "expected journal Route"
    | some route =>
      Except.ok { create_revision := j.create_revision, spec := spec,
                  _mod_revision := j.mod_revision, _route := route }

/-- The whole loop: convert each listed journal, short-circuiting on the
first missing spec/route. -/
def collect_partitions : List ListedJournal → Except String (List Partition)
  | [] => Except.ok []
  | j :: js =>
    match journal_to_partition j with
    | Except.error e => Except.error e
    | Except.ok p =>
      match collect_partitions js with
      | Except.error e => Except.error e
      | Except.ok ps => Except.ok (p :: ps)

/-- Embedding of `Collection::fetch_partitions`, given the broker's `ListResponse`
journals: build partitions, then sort them by `(create_revision, name)`
with a stable sort (Rust `sort_by`; embedded as insertion sort, which is
stable and agrees with any stable sort under a total preorder). -/
def fetch_partitions (journals : List ListedJournal) :
    Except String (List Partition) :=
  match collect_partitions journals with
  | Except.error e => Except.error e
  | Except.ok partitions => Except.ok (partitions.insertionSort partition_le)

/-! ### Machine-integer helpers -/

/-- The value `i64::MAX` (`2 ^ 63 - 1`). -/
def i64_max : Int := 9223372036854775807

/-- Wrapping of an exact integer into `i64` two's-complement range
(release-mode Rust arithmetic): `(z + 2 ^ 63) % 2 ^ 64 - 2 ^ 63`. -/
def wrap_i64 (z : Int) : Int :=
  (z + 9223372036854775808) % 18446744073709551616 - 9223372036854775808

/-- The `u64 as i64` cast. -/
def u64_as_i64 (n : Nat) : Int := wrap_i64 n

/-! ### Remaining data model of `topology.rs`

`doc::Pointer`, `avro::Schema` and the JSON-schema conversion are external
crates: we keep pointers as their raw path string and an Avro schema as its
canonical textual form (`Schema::canonical_form`), which is the only part
of it `topology.rs` consults. -/

/-- Model of `doc::Pointer`, kept as its raw path (external crate, modeled opaquely). -/
structure Pointer where
  raw : String
  deriving DecidableEq

/-- Model of `doc::Pointer::from_str` (infallible in the source). -/
def Pointer.from_str (s : String) : Pointer := ⟨s⟩

/-- Model of `avro::Schema`, reduced to its canonical form, the only view of it this
module consults (via `canonical_form()`). -/
structure AvroSchema where
  canonical_form : String
  deriving DecidableEq

/-- Model of `flow::CollectionSpec`, restricted to the fields `topology.rs` reads. -/
structure CollectionSpec where
  name : String
  key : List String
  uuid_ptr : String
  read_schema_json : String
  write_schema_json : String
  deriving DecidableEq

/-- Model of `broker::fragment::Spec` fields consulted: `begin`, `end`, `mod_time`
(all `i64`; `begin`/`end` renamed as `end` is a Lean keyword). -/
structure FragmentSpec where
  begin_ : Int
  end_ : Int
  mod_time : Int
  deriving DecidableEq

/-- Model of `broker::fragments_response::Fragment`: an optional embedded spec. -/
structure FragmentListing where
  spec : Option FragmentSpec
  deriving DecidableEq

/-- Model of `broker::FragmentsRequest`, restricted to the fields the source sets. -/
structure FragmentsRequest where
  journal : String
  begin_mod_time : Int
  page_limit : Nat
  deriving DecidableEq

/-- Model of `broker::FragmentsResponse`. -/
structure FragmentsResponse where
  fragments : List FragmentListing
  deriving DecidableEq

/-- Structure `Collection` from `topology.rs`.  The journal client is embedded as the
response function of its `list_fragments` endpoint; `not_before` is kept as
the `u64` seconds part of `uuid::Clock::to_unix`. -/
structure Collection where
  journal_client : FragmentsRequest → Except String FragmentsResponse
  key_ptr : List Pointer
  key_schema : AvroSchema
  not_before_sec : Nat
  partitions : List Partition
  spec : CollectionSpec
  uuid_ptr : Pointer
  value_schema : AvroSchema

/-! ### Offset resolver -/

/-- The `begin_mod_time` computation of `Collection::fetch_partition_offset`:
`i64::MAX` for the `-1` sentinel, `0` for the `-2` sentinel, otherwise the
millisecond timestamp divided by 1000 (Rust `i64` division truncates toward
zero) clamped upward to `not_before` seconds. -/
def begin_mod_time_of (not_before_sec : Int) (timestamp_millis : Int) : Int :=
  if timestamp_millis = -1 then i64_max
  else if timestamp_millis = -2 then 0
  else
    let timestamp := Int.tdiv timestamp_millis 1000
    if timestamp < not_before_sec then not_before_sec else timestamp

/-- Embedding of `Collection::fetch_partition_offset`: resolve a partition index and a
timestamp (or sentinel) to a fragment offset and modification time. -/
def fetch_partition_offset (c : Collection) (partition_index : Nat)
    (timestamp_millis : Int) : Except String (Option (Int × Int)) :=
  match c.partitions[partition_index]? with
  | none => Except.ok none
  | some partition =>
    let not_before_sec := u64_as_i64 c.not_before_sec
    let begin_mod_time := begin_mod_time_of not_before_sec timestamp_millis
    let request : FragmentsRequest :=
      { journal := partition.spec.name, begin_mod_time := begin_mod_time,
        page_limit := 1 }
    match c.journal_client request with
    | Except.error e => Except.error e
    | Except.ok response =>
      let pair :=
        match response.fragments.head? with
        | some { spec := some spec } =>
          if timestamp_millis = -1 then (wrap_i64 (spec.end_ - 1), spec.mod_time)
          else (spec.begin_, spec.mod_time)
        | _ => (0, 0)
      Except.ok (some pair)

/-! ### Topology assembler -/

/-- Embedding of `Collection::fetch_spec`, given the metadata store's response rows:
`rows.pop()` takes the last row, zero rows is `Ok(None)`. -/
def fetch_spec (query : Except String (List CollectionSpec)) :
    Except String (Option CollectionSpec) :=
  match query with
  | Except.error e => Except.error e
  | Except.ok rows => Except.ok rows.getLast?

/-- Embedding of `Collection::new`.  The two concurrent branches are passed in as their
results: the spec-fetch response rows, and the journal-client build plus
journal listing used by `fetch_partitions`.  As in the source, a `None`
spec short-circuits to `Ok(None)` before the partition branch is consulted,
and the spec branch's error is surfaced first. -/
def Collection.new
    (spec_rows : Except String (List CollectionSpec))
    (journal_client :
      Except String (FragmentsRequest → Except String FragmentsResponse))
    (journals : Except String (List ListedJournal))
    (json_schema_to_avro : String → Except String (AvroSchema × AvroSchema))
    (not_before_sec : Nat) :
    Except String (Option Collection) :=
  let client_partitions :
      Except String
        ((FragmentsRequest → Except String FragmentsResponse) ×
          List Partition) :=
    match journal_client with
    | Except.error e => Except.error e
    | Except.ok jc =>
      match journals with
      | Except.error e => Except.error e
      | Except.ok js =>
        match fetch_partitions js with
        | Except.error e => Except.error e
        | Except.ok ps => Except.ok (jc, ps)
  match fetch_spec spec_rows with
  | Except.error e => Except.error e
  | Except.ok none => Except.ok none
  | Except.ok (some spec) =>
    match client_partitions with
    | Except.error e => Except.error e
    | Except.ok (jc, partitions) =>
      let key_ptr := spec.key.map Pointer.from_str
      let uuid_ptr := Pointer.from_str spec.uuid_ptr
      let json_schema :=
        if spec.read_schema_json.isEmpty then spec.write_schema_json
        else spec.read_schema_json
      match json_schema_to_avro json_schema with
      | Except.error e => Except.error e
      | Except.ok (key_schema, value_schema) =>
        Except.ok (some
          { journal_client := jc, key_ptr := key_ptr, key_schema := key_schema,
            not_before_sec := not_before_sec, partitions := partitions,
            spec := spec, uuid_ptr := uuid_ptr, value_schema := value_schema })

/-! ### Schema registry client

The `registered_avro_schemas` table is modeled as a row list plus the next
serial `registry_id` the store would assign.  The md5-of-canonical-JSON
digest pipeline (`canonical_form` → `serde_json` reparse for property-order
stability → `md5`) is external and deterministic, so it is passed in as one
digest function of the canonical form. -/

/-- One row of `registered_avro_schemas` as this module reads and writes
it: the store keys rows by schema digest and assigns `registry_id`. -/
structure RegisteredSchemaRow where
  avro_schema_md5 : String
  registry_id : Nat
  catalog_name : String
  deriving DecidableEq

/-- The metadata store's `registered_avro_schemas` state. -/
structure SchemaRegistry where
  rows : List RegisteredSchemaRow
  next_registry_id : Nat
  deriving DecidableEq

/-- Result of one `registered_schema_id` call: the returned ID, the store
state afterwards, and how many inserts were performed. -/
structure RegistrationOutcome where
  registry_id : Nat
  store : SchemaRegistry
  inserts : Nat
  deriving DecidableEq

/-- Embedding of `Collection::registered_schema_id`: digest the schema's canonical form,
look up an existing row by digest (`rows.pop()` takes the last match), and
only on a miss insert a new row, returning the newly assigned ID. -/
def registered_schema_id (digest : String → String) (store : SchemaRegistry)
    (catalog_name : String) (schema : AvroSchema) : RegistrationOutcome :=
  let schema_md5 := digest schema.canonical_form
  let found := store.rows.filter (fun r => r.avro_schema_md5 == schema_md5)
  match found.getLast? with
  | some row => { registry_id := row.registry_id, store := store, inserts := 0 }
  | none =>
    let id := store.next_registry_id
    { registry_id := id,
      store :=
        { rows := store.rows ++
            [{ avro_schema_md5 := schema_md5, registry_id := id,
               catalog_name := catalog_name }],
          next_registry_id := id + 1 },
      inserts := 1 }

/-! ### Spec-level statement of the partition order

Stated independently of the comparator: strict lexicographic order on names
is Mathlib's `List.Lex` over characters, and the pair order is "ascending
by `(create_revision, name)`". -/

/-- Strict lexicographic order on journal names. -/
def name_lex_lt (a b : String) : Prop := List.Lex charLt a.data b.data

/-- The spec's partition order: ascending by `create_revision`, ties broken
lexicographically by journal name. -/
def pair_order (l r : Partition) : Prop :=
  l.create_revision < r.create_revision ∨
    (l.create_revision = r.create_revision ∧
      (name_lex_lt l.spec.name r.spec.name ∨ l.spec.name = r.spec.name))

/-- Total extraction of a partition from a listed journal (proof helper for
journals known to carry a spec and a route; defaults are never reached). -/
def partition_of (j : ListedJournal) : Partition :=
  { create_revision := j.create_revision, spec := j.spec.getD ⟨""⟩,
    _mod_revision := j.mod_revision, _route := j.route.getD ⟨0⟩ }

/-- The strict-on-names restriction of `partition_le` (proof helper: it is
antisymmetric, which the plain preorder is not). -/
def partition_lt_names (l r : Partition) : Prop :=
  partition_le l r ∧ l.spec.name ≠ r.spec.name

/-! ### Properties of the comparators -/

theorem cmp_i64_eq_iff {a b : Int} : cmp_i64 a b = Ordering.eq ↔ a = b := by
  unfold cmp_i64
  split_ifs with h1 h2 <;> simp <;> omega

theorem cmp_i64_lt_iff {a b : Int} : cmp_i64 a b = Ordering.lt ↔ a < b := by
  unfold cmp_i64
  split_ifs with h1 h2 <;> simp <;> omega

theorem cmp_i64_gt_iff {a b : Int} : cmp_i64 a b = Ordering.gt ↔ b < a := by
  unfold cmp_i64
  split_ifs with h1 h2 <;> simp <;> omega

theorem char_toNat_inj {a b : Char} (h : a.toNat = b.toNat) : a = b :=
  Char.ext (UInt32.toNat.inj h)

theorem str_cmp_chars_eq_iff :
    ∀ a b : List Char, str_cmp_chars a b = Ordering.eq ↔ a = b
  | [], [] => by simp [str_cmp_chars]
  | [], _ :: _ => by simp [str_cmp_chars]
  | _ :: _, [] => by simp [str_cmp_chars]
  | a :: as, b :: bs => by
    unfold str_cmp_chars
    split_ifs with h1 h2
    · simp only [List.cons.injEq]
      constructor
      · intro h; cases h
      · rintro ⟨rfl, rfl⟩; exact absurd h1 (Nat.lt_irrefl _)
    · simp only [List.cons.injEq]
      constructor
      · intro h; cases h
      · rintro ⟨rfl, rfl⟩; exact absurd h2 (Nat.lt_irrefl _)
    · have hab : a = b := char_toNat_inj (by omega)
      subst hab
      rw [str_cmp_chars_eq_iff as bs]
      simp

theorem str_cmp_chars_lt_iff :
    ∀ a b : List Char, str_cmp_chars a b = Ordering.lt ↔ List.Lex charLt a b
  | [], [] => by
    simp only [str_cmp_chars]
    constructor
    · intro h; cases h
    · intro h; cases h
  | [], b :: bs =>
    iff_of_true (by simp [str_cmp_chars]) List.Lex.nil
  | _ :: _, [] => by
    simp only [str_cmp_chars]
    constructor
    · intro h; cases h
    · intro h; cases h
  | a :: as, b :: bs => by
    unfold str_cmp_chars
    split_ifs with h1 h2
    · exact iff_of_true rfl (List.Lex.rel h1)
    · constructor
      · intro h; cases h
      · intro h
        cases h with
        | cons h => exact absurd h2 (Nat.lt_irrefl _)
        | rel h => exact absurd (Nat.lt_trans h h2) (Nat.lt_irrefl _)
    · have hab : a = b := char_toNat_inj (by omega)
      subst hab
      rw [str_cmp_chars_lt_iff as bs]
      constructor
      · exact List.Lex.cons
      · intro h
        cases h with
        | cons h => exact h
        | rel h => exact absurd h (Nat.lt_irrefl _)

theorem str_cmp_chars_gt_iff :
    ∀ a b : List Char, str_cmp_chars a b = Ordering.gt ↔ List.Lex charLt b a
  | [], [] => by
    simp only [str_cmp_chars]
    constructor
    · intro h; cases h
    · intro h; cases h
  | [], _ :: _ => by
    simp only [str_cmp_chars]
    constructor
    · intro h; cases h
    · intro h; cases h
  | a :: as, [] =>
    iff_of_true (by simp [str_cmp_chars]) List.Lex.nil
  | a :: as, b :: bs => by
    unfold str_cmp_chars
    split_ifs with h1 h2
    · constructor
      · intro h; cases h
      · intro h
        cases h with
        | cons h => exact absurd h1 (Nat.lt_irrefl _)
        | rel h => exact absurd (Nat.lt_trans h h1) (Nat.lt_irrefl _)
    · exact iff_of_true rfl (List.Lex.rel h2)
    · have hab : a = b := char_toNat_inj (by omega)
      subst hab
      rw [str_cmp_chars_gt_iff as bs]
      constructor
      · exact List.Lex.cons
      · intro h
        cases h with
        | cons h => exact h
        | rel h => exact absurd h (Nat.lt_irrefl _)

theorem str_cmp_eq_iff {a b : String} : str_cmp a b = Ordering.eq ↔ a = b := by
  unfold str_cmp
  rw [str_cmp_chars_eq_iff]
  constructor
  · intro h
    cases a; cases b
    exact congrArg String.mk (by simpa using h)
  · intro h; rw [h]

theorem lex_charLt_trans {l₁ l₂ l₃ : List Char} :
    List.Lex charLt l₁ l₂ → List.Lex charLt l₂ l₃ → List.Lex charLt l₁ l₃ := by
  intro h₁ h₂
  induction h₁ generalizing l₃ with
  | nil =>
    cases h₂ with
    | cons _ => exact List.Lex.nil
    | rel _ => exact List.Lex.nil
  | @cons a as bs h ih =>
    cases h₂ with
    | cons h' => exact List.Lex.cons (ih h')
    | rel h' => exact List.Lex.rel h'
  | @rel a as b bs h =>
    cases h₂ with
    | cons _ => exact List.Lex.rel h
    | rel h' => exact List.Lex.rel (Nat.lt_trans h h')

theorem lex_charLt_asymm {l₁ l₂ : List Char} :
    List.Lex charLt l₁ l₂ → List.Lex charLt l₂ l₁ → False := by
  intro h₁ h₂
  induction h₁ with
  | nil => cases h₂
  | cons _ ih =>
    cases h₂ with
    | cons h' => exact ih h'
    | rel h' => exact absurd h' (Nat.lt_irrefl _)
  | rel h =>
    cases h₂ with
    | cons _ => exact absurd h (Nat.lt_irrefl _)
    | rel h' => exact absurd (Nat.lt_trans h h') (Nat.lt_irrefl _)

theorem str_cmp_lt_iff {a b : String} :
    str_cmp a b = Ordering.lt ↔ name_lex_lt a b :=
  str_cmp_chars_lt_iff a.data b.data

theorem str_cmp_gt_iff {a b : String} :
    str_cmp a b = Ordering.gt ↔ name_lex_lt b a :=
  str_cmp_chars_gt_iff a.data b.data

/-! ### The comparator order is exactly the spec's pair order -/

theorem partition_le_iff {l r : Partition} :
    partition_le l r ↔ pair_order l r := by
  constructor
  · intro hle
    unfold partition_le partition_cmp at hle
    unfold pair_order
    rcases h : cmp_i64 l.create_revision r.create_revision with _ | _ | _
    · exact Or.inl (cmp_i64_lt_iff.mp h)
    · rw [h] at hle
      refine Or.inr ⟨cmp_i64_eq_iff.mp h, ?_⟩
      rcases hs : str_cmp l.spec.name r.spec.name with _ | _ | _
      · exact Or.inl (str_cmp_lt_iff.mp hs)
      · exact Or.inr (str_cmp_eq_iff.mp hs)
      · exact absurd hs hle
    · rw [h] at hle
      exact absurd rfl hle
  · intro hpo
    unfold partition_le partition_cmp
    rcases hpo with hlt | ⟨heq, hname⟩
    · rw [cmp_i64_lt_iff.mpr hlt]
      simp
    · rw [cmp_i64_eq_iff.mpr heq]
      rcases hname with hlex | hseq
      · have hs := str_cmp_lt_iff.mpr hlex
        simp [hs]
      · have hs := str_cmp_eq_iff.mpr hseq
        simp [hs]

theorem pair_order_total (l r : Partition) : pair_order l r ∨ pair_order r l := by
  rcases lt_trichotomy l.create_revision r.create_revision with h | h | h
  · exact Or.inl (Or.inl h)
  · rcases ht : str_cmp l.spec.name r.spec.name with _ | _ | _
    · exact Or.inl (Or.inr ⟨h, Or.inl (str_cmp_lt_iff.mp ht)⟩)
    · exact Or.inl (Or.inr ⟨h, Or.inr (str_cmp_eq_iff.mp ht)⟩)
    · exact Or.inr (Or.inr ⟨h.symm, Or.inl (str_cmp_gt_iff.mp ht)⟩)
  · exact Or.inr (Or.inl h)

theorem pair_order_trans {a b c : Partition} :
    pair_order a b → pair_order b c → pair_order a c := by
  rintro (h1 | ⟨e1, n1⟩) (h2 | ⟨e2, n2⟩)
  · exact Or.inl (lt_trans h1 h2)
  · exact Or.inl (by omega)
  · exact Or.inl (by omega)
  · refine Or.inr ⟨by omega, ?_⟩
    rcases n1 with n1 | n1 <;> rcases n2 with n2 | n2
    · exact Or.inl (lex_charLt_trans n1 n2)
    · exact Or.inl (by rw [← n2]; exact n1)
    · exact Or.inl (by rw [n1]; exact n2)
    · exact Or.inr (n1.trans n2)

theorem pair_order_antisymm_names {a b : Partition}
    (h1 : pair_order a b) (h2 : pair_order b a) :
    a.create_revision = b.create_revision ∧ a.spec.name = b.spec.name := by
  rcases h1 with h1 | ⟨e1, n1⟩
  · rcases h2 with h2 | ⟨e2, n2⟩
    · exact absurd (lt_trans h1 h2) (lt_irrefl _)
    · rw [e2] at h1
      exact absurd h1 (lt_irrefl _)
  · rcases h2 with h2 | ⟨e2, n2⟩
    · rw [e1] at h2
      exact absurd h2 (lt_irrefl _)
    · refine ⟨e1, ?_⟩
      rcases n1 with n1 | n1
      · rcases n2 with n2 | n2
        · exact (lex_charLt_asymm n1 n2).elim
        · rw [n2] at n1
          exact (lex_charLt_asymm n1 n1).elim
      · exact n1

theorem partition_le_total (a b : Partition) :
    partition_le a b ∨ partition_le b a := by
  rcases pair_order_total a b with h | h
  · exact Or.inl (partition_le_iff.mpr h)
  · exact Or.inr (partition_le_iff.mpr h)

theorem partition_le_trans {a b c : Partition} :
    partition_le a b → partition_le b c → partition_le a c := fun h1 h2 =>
  partition_le_iff.mpr
    (pair_order_trans (partition_le_iff.mp h1) (partition_le_iff.mp h2))

/-! ### Sortedness and determinism of `fetch_partitions` -/

theorem fetch_partitions_ok {journals : List ListedJournal}
    {ps : List Partition} (h : fetch_partitions journals = Except.ok ps) :
    ∃ raw, collect_partitions journals = Except.ok raw ∧
      ps = raw.insertionSort partition_le := by
  unfold fetch_partitions at h
  rcases hc : collect_partitions journals with e | raw
  · rw [hc] at h
    cases h
  · rw [hc] at h
    injection h with h
    exact ⟨raw, rfl, h.symm⟩

theorem fetch_partitions_sorted {journals : List ListedJournal}
    {ps : List Partition} (h : fetch_partitions journals = Except.ok ps) :
    ps.Sorted pair_order := by
  obtain ⟨raw, -, rfl⟩ := fetch_partitions_ok h
  haveI : IsTotal Partition partition_le := ⟨partition_le_total⟩
  haveI : IsTrans Partition partition_le :=
    ⟨fun _ _ _ => partition_le_trans⟩
  exact (List.sorted_insertionSort partition_le raw).imp
    (fun hab => partition_le_iff.mp hab)

theorem collect_partitions_all_some {journals : List ListedJournal}
    (h : ∀ j ∈ journals, j.spec.isSome ∧ j.route.isSome) :
    collect_partitions journals = Except.ok (journals.map partition_of) := by
  induction journals with
  | nil => rfl
  | cons j js ih =>
    obtain ⟨hs, hr⟩ := h j (List.mem_cons_self j js)
    obtain ⟨s, hs'⟩ := Option.isSome_iff_exists.mp hs
    obtain ⟨r, hr'⟩ := Option.isSome_iff_exists.mp hr
    have ihh := ih (fun x hx => h x (List.mem_cons_of_mem _ hx))
    simp only [collect_partitions, journal_to_partition, hs', hr', ihh,
      List.map_cons]
    simp [partition_of, hs', hr']

theorem insertionSort_eq_of_perm {ps₁ ps₂ : List Partition}
    (hp : ps₁.Perm ps₂)
    (hnd : ps₁.Pairwise (fun a b => a.spec.name ≠ b.spec.name)) :
    ps₁.insertionSort partition_le = ps₂.insertionSort partition_le := by
  haveI : IsTotal Partition partition_le := ⟨partition_le_total⟩
  haveI : IsTrans Partition partition_le :=
    ⟨fun _ _ _ => partition_le_trans⟩
  haveI : IsAntisymm Partition partition_lt_names :=
    ⟨fun a b h1 h2 =>
      False.elim (h1.2
        (pair_order_antisymm_names (partition_le_iff.mp h1.1)
          (partition_le_iff.mp h2.1)).2)⟩
  have hnd₂ : ps₂.Pairwise (fun a b => a.spec.name ≠ b.spec.name) :=
    (hp.pairwise_iff (fun hab => Ne.symm hab)).mp hnd
  apply List.eq_of_perm_of_sorted (r := partition_lt_names)
  · exact (List.perm_insertionSort _ ps₁).trans
      (hp.trans (List.perm_insertionSort _ ps₂).symm)
  · have hle := List.sorted_insertionSort partition_le ps₁
    have hne := ((List.perm_insertionSort partition_le ps₁).pairwise_iff
      (fun hab => Ne.symm hab)).mpr hnd
    exact hle.and hne
  · have hle := List.sorted_insertionSort partition_le ps₂
    have hne := ((List.perm_insertionSort partition_le ps₂).pairwise_iff
      (fun hab => Ne.symm hab)).mpr hnd₂
    exact hle.and hne

theorem fetch_partitions_all_some {journals : List ListedJournal}
    (h : ∀ j ∈ journals, j.spec.isSome ∧ j.route.isSome) :
    fetch_partitions journals =
      Except.ok ((journals.map partition_of).insertionSort partition_le) := by
  unfold fetch_partitions
  rw [collect_partitions_all_some h]

/-! ### Claims -/

/-- Claim C1: for every collection, the partitions sequence produced by
partition enumeration is sorted ascending by the pair
`(create_revision, journal name)`, ties on `create_revision` broken
lexicographically by name; in particular, journals with creation revisions
`[5, 3, 5]` named `["part-002", "part-000", "part-001"]` end up in index
order `[part-000, part-001, part-002]`. -/
theorem c1_partition_order :
    (∀ journals ps, fetch_partitions journals = Except.ok ps →
      ps.Sorted pair_order) ∧
    Except.map (fun ps => ps.map (fun p => p.spec.name))
      (fetch_partitions
        [ { spec := some ⟨"part-002"⟩, create_revision := 5,
            mod_revision := 11, route := some ⟨0⟩ },
          { spec := some ⟨"part-000"⟩, create_revision := 3,
            mod_revision := 12, route := some ⟨0⟩ },
          { spec := some ⟨"part-001"⟩, create_revision := 5,
            mod_revision := 13, route := some ⟨0⟩ } ]) =
      Except.ok ["part-000", "part-001", "part-002"] :=
  ⟨fun _ _ h => fetch_partitions_sorted h, by rfl⟩

/-- Witness for C1: the sortedness half applied to the concrete journal
listing of the end-to-end scenario. -/
theorem c1_partition_order_witness :
    ([ { create_revision := 3, spec := ⟨"part-000"⟩, _mod_revision := 12,
         _route := ⟨0⟩ },
       { create_revision := 5, spec := ⟨"part-001"⟩, _mod_revision := 13,
         _route := ⟨0⟩ },
       { create_revision := 5, spec := ⟨"part-002"⟩, _mod_revision := 11,
         _route := ⟨0⟩ } ] : List Partition).Sorted pair_order :=
  c1_partition_order.1
    [ { spec := some ⟨"part-002"⟩, create_revision := 5,
        mod_revision := 11, route := some ⟨0⟩ },
      { spec := some ⟨"part-000"⟩, create_revision := 3,
        mod_revision := 12, route := some ⟨0⟩ },
      { spec := some ⟨"part-001"⟩, create_revision := 5,
        mod_revision := 13, route := some ⟨0⟩ } ]
    _ (by rfl)

/-- Claim C5: for a fixed set of journals (pairwise distinct names, each
carrying its spec and route), enumeration-and-sort produces the identical
output sequence regardless of the order the metadata store lists them in,
so partition index assignment is deterministic across repeated calls. -/
theorem c5_partition_order_deterministic
    {js₁ js₂ : List ListedJournal} (hperm : js₁.Perm js₂)
    (hok : ∀ j ∈ js₁, j.spec.isSome ∧ j.route.isSome)
    (hnames : js₁.Pairwise (fun a b =>
      Option.map JournalSpec.name a.spec ≠
        Option.map JournalSpec.name b.spec)) :
    fetch_partitions js₁ = fetch_partitions js₂ := by
  have hok₂ : ∀ j ∈ js₂, j.spec.isSome ∧ j.route.isSome :=
    fun j hj => hok j (hperm.mem_iff.mpr hj)
  rw [fetch_partitions_all_some hok, fetch_partitions_all_some hok₂]
  congr 1
  apply insertionSort_eq_of_perm (hperm.map partition_of)
  rw [List.pairwise_map]
  refine hnames.imp_of_mem (fun {a b} ha hb hne => ?_)
  obtain ⟨sa, hsa⟩ := Option.isSome_iff_exists.mp (hok a ha).1
  obtain ⟨sb, hsb⟩ := Option.isSome_iff_exists.mp (hok b hb).1
  simp only [hsa, hsb, Option.map_some'] at hne
  simp only [partition_of, hsa, hsb, Option.getD_some]
  intro hc
  exact hne (by rw [hc])

/-- Witness for C5: swapping two concrete journals in the listing does not
change the enumerated partition sequence. -/
theorem c5_partition_order_deterministic_witness :
    fetch_partitions
      [ { spec := some ⟨"part-001"⟩, create_revision := 5,
          mod_revision := 1, route := some ⟨0⟩ },
        { spec := some ⟨"part-000"⟩, create_revision := 3,
          mod_revision := 2, route := some ⟨0⟩ } ] =
    fetch_partitions
      [ { spec := some ⟨"part-000"⟩, create_revision := 3,
          mod_revision := 2, route := some ⟨0⟩ },
        { spec := some ⟨"part-001"⟩, create_revision := 5,
          mod_revision := 1, route := some ⟨0⟩ } ] :=
  c5_partition_order_deterministic
    (List.Perm.swap _ _ _) (by decide) (by decide)

/-- Claim C6: a collection name whose specification lookup yields zero
rows makes `Collection::new` return the "not found" outcome `Ok(None)`,
not an error, whatever the journal listing holds (journals for the name
may well exist). -/
theorem c6_absent_collection_not_found
    (journal_client :
      Except String (FragmentsRequest → Except String FragmentsResponse))
    (journals : Except String (List ListedJournal))
    (json_schema_to_avro : String → Except String (AvroSchema × AvroSchema))
    (not_before_sec : Nat) :
    Collection.new (Except.ok []) journal_client journals
        json_schema_to_avro not_before_sec =
      Except.ok none := rfl

/-- Claim C7: a partition index at or past the partition count resolves to
`Ok(None)` immediately, never an error, for any requested timestamp or
sentinel — even when the broker itself would fail. -/
theorem c7_out_of_range_index_none (c : Collection) (partition_index : Nat)
    (timestamp_millis : Int)
    (h : c.partitions.length ≤ partition_index) :
    fetch_partition_offset c partition_index timestamp_millis =
      Except.ok none := by
  unfold fetch_partition_offset
  rw [List.getElem?_eq_none h]

/-- Witness for C7: a partition-free collection whose broker endpoint
always errors still answers `Ok(None)` at index 0. -/
theorem c7_out_of_range_index_none_witness :
    fetch_partition_offset
      { journal_client := fun _ => Except.error "unreachable broker",
        key_ptr := [], key_schema := ⟨"k"⟩, not_before_sec := 0,
        partitions := [], spec := ⟨"acme/clicks", [], "/u", "", ""⟩,
        uuid_ptr := ⟨"/u"⟩, value_schema := ⟨"v"⟩ } 0 (-1) =
      Except.ok none :=
  c7_out_of_range_index_none
    { journal_client := fun _ => Except.error "unreachable broker",
      key_ptr := [], key_schema := ⟨"k"⟩, not_before_sec := 0,
      partitions := [], spec := ⟨"acme/clicks", [], "/u", "", ""⟩,
      uuid_ptr := ⟨"/u"⟩, value_schema := ⟨"v"⟩ }
    0 (-1) (by decide)

/-! ### Offset-resolver helper lemmas -/

theorem begin_mod_time_of_neg_two (nb : Int) :
    begin_mod_time_of nb (-2) = 0 := rfl

theorem begin_mod_time_of_neg_one (nb : Int) :
    begin_mod_time_of nb (-1) = i64_max := rfl

theorem wrap_i64_eq_self (z : Int) (hlo : -2 ^ 63 ≤ z) (hhi : z < 2 ^ 63) :
    wrap_i64 z = z := by
  unfold wrap_i64
  omega

theorem fetch_partition_offset_congr (c : Collection) (i : Nat)
    {ts ts' : Int} (h1 : ts ≠ -1) (h1' : ts' ≠ -1)
    (heq : begin_mod_time_of (u64_as_i64 c.not_before_sec) ts =
        begin_mod_time_of (u64_as_i64 c.not_before_sec) ts') :
    fetch_partition_offset c i ts = fetch_partition_offset c i ts' := by
  simp only [fetch_partition_offset, heq, if_neg h1, if_neg h1']

/-- Claim C3 is wrong about the returned offset: the `-2` ("oldest")
sentinel searches with floor `0` and returns the first fragment's *begin*
offset — which is `0` only when the log retains the journal's head — along
with that fragment's modification time.  This is the amended statement. -/
theorem c3_sentinel_oldest (c : Collection) (partition_index : Nat)
    (p : Partition) (resp : FragmentsResponse) (fspec : FragmentSpec)
    (hp : c.partitions[partition_index]? = some p)
    (hresp : c.journal_client
        { journal := p.spec.name, begin_mod_time := 0, page_limit := 1 } =
      Except.ok resp)
    (hhead : resp.fragments.head? = some { spec := some fspec }) :
    begin_mod_time_of (u64_as_i64 c.not_before_sec) (-2) = 0 ∧
    fetch_partition_offset c partition_index (-2) =
      Except.ok (some (fspec.begin_, fspec.mod_time)) := by
  refine ⟨rfl, ?_⟩
  simp only [fetch_partition_offset, hp, begin_mod_time_of_neg_two, hresp,
    hhead]
  norm_num

/-- Counterexample to C3 as stated: a non-empty partition whose earliest
fragment begins at byte 7 (its head was pruned) makes the `-2` sentinel
return offset 7, not offset 0. -/
theorem c3_counterexample :
    fetch_partition_offset
      { journal_client := fun _ =>
          Except.ok { fragments := [{ spec := some ⟨7, 20, 9⟩ }] },
        key_ptr := [], key_schema := ⟨"k"⟩, not_before_sec := 0,
        partitions := [⟨3, ⟨"part-000"⟩, 4, ⟨0⟩⟩],
        spec := ⟨"acme/clicks", [], "/u", "", ""⟩,
        uuid_ptr := ⟨"/u"⟩, value_schema := ⟨"v"⟩ } 0 (-2) =
      Except.ok (some (7, 9)) ∧ (7 : Int) ≠ 0 :=
  ⟨by rfl, by decide⟩

/-- Witness for the amended C3 at the same concrete input. -/
theorem c3_sentinel_oldest_witness :
    begin_mod_time_of (u64_as_i64 0) (-2) = 0 ∧
    fetch_partition_offset
      { journal_client := fun _ =>
          Except.ok { fragments := [{ spec := some ⟨7, 20, 9⟩ }] },
        key_ptr := [], key_schema := ⟨"k"⟩, not_before_sec := 0,
        partitions := [⟨3, ⟨"part-001"⟩, 4, ⟨0⟩⟩],
        spec := ⟨"acme/clicks", [], "/u", "", ""⟩,
        uuid_ptr := ⟨"/u"⟩, value_schema := ⟨"v"⟩ } 0 (-2) =
      Except.ok (some (7, 9)) :=
  c3_sentinel_oldest
    { journal_client := fun _ =>
          Except.ok { fragments := [{ spec := some ⟨7, 20, 9⟩ }] },
        key_ptr := [], key_schema := ⟨"k"⟩, not_before_sec := 0,
        partitions := [⟨3, ⟨"part-001"⟩, 4, ⟨0⟩⟩],
        spec := ⟨"acme/clicks", [], "/u", "", ""⟩,
        uuid_ptr := ⟨"/u"⟩, value_schema := ⟨"v"⟩ }
    0 ⟨3, ⟨"part-001"⟩, 4, ⟨0⟩⟩
    { fragments := [{ spec := some ⟨7, 20, 9⟩ }] }
    ⟨7, 20, 9⟩ rfl rfl rfl

/-- Claim C4: the `-1` ("newest") sentinel searches with floor `i64::MAX`
and a found fragment yields `(end - 1, mod_time)` (for `end` in `i64`
range, where the subtraction does not wrap), while any non-sentinel
timestamp yields `(begin, mod_time)`. -/
theorem c4_sentinel_newest_and_literal (c : Collection)
    (partition_index : Nat) (p : Partition)
    (hp : c.partitions[partition_index]? = some p) :
    (begin_mod_time_of (u64_as_i64 c.not_before_sec) (-1) = i64_max ∧
      ∀ resp fspec,
        c.journal_client
            { journal := p.spec.name, begin_mod_time := i64_max,
              page_limit := 1 } = Except.ok resp →
        resp.fragments.head? = some { spec := some fspec } →
        -2 ^ 63 < fspec.end_ → fspec.end_ < 2 ^ 63 →
        fetch_partition_offset c partition_index (-1) =
          Except.ok (some (fspec.end_ - 1, fspec.mod_time))) ∧
    (∀ timestamp_millis resp fspec,
        timestamp_millis ≠ -1 → timestamp_millis ≠ -2 →
        c.journal_client
            { journal := p.spec.name,
              begin_mod_time :=
                begin_mod_time_of (u64_as_i64 c.not_before_sec)
                  timestamp_millis,
              page_limit := 1 } = Except.ok resp →
        resp.fragments.head? = some { spec := some fspec } →
        fetch_partition_offset c partition_index timestamp_millis =
          Except.ok (some (fspec.begin_, fspec.mod_time))) := by
  constructor
  · refine ⟨rfl, fun resp fspec hresp hhead hlo hhi => ?_⟩
    simp only [fetch_partition_offset, hp, begin_mod_time_of_neg_one, hresp,
      hhead]
    rw [if_true, wrap_i64_eq_self (fspec.end_ - 1) (by omega) (by omega)]
  · intro timestamp_millis resp fspec h1 h2 hresp hhead
    simp only [fetch_partition_offset, hp, hresp, hhead, if_neg h1]

/-- Witness for C4: a concrete one-partition collection whose only
fragment is `[3, 10)` modified at 7 returns `(9, 7)` for the newest
sentinel and `(3, 7)` for the literal timestamp 1234. -/
theorem c4_sentinel_newest_and_literal_witness :
    fetch_partition_offset
      { journal_client := fun _ =>
          Except.ok { fragments := [{ spec := some ⟨3, 10, 7⟩ }] },
        key_ptr := [], key_schema := ⟨"k"⟩, not_before_sec := 0,
        partitions := [⟨3, ⟨"part-000"⟩, 4, ⟨0⟩⟩],
        spec := ⟨"acme/clicks", [], "/u", "", ""⟩,
        uuid_ptr := ⟨"/u"⟩, value_schema := ⟨"v"⟩ } 0 (-1) =
      Except.ok (some (9, 7)) ∧
    fetch_partition_offset
      { journal_client := fun _ =>
          Except.ok { fragments := [{ spec := some ⟨3, 10, 7⟩ }] },
        key_ptr := [], key_schema := ⟨"k"⟩, not_before_sec := 0,
        partitions := [⟨3, ⟨"part-000"⟩, 4, ⟨0⟩⟩],
        spec := ⟨"acme/clicks", [], "/u", "", ""⟩,
        uuid_ptr := ⟨"/u"⟩, value_schema := ⟨"v"⟩ } 0 1234 =
      Except.ok (some (3, 7)) :=
  ⟨(c4_sentinel_newest_and_literal
      { journal_client := fun _ =>
          Except.ok { fragments := [{ spec := some ⟨3, 10, 7⟩ }] },
        key_ptr := [], key_schema := ⟨"k"⟩, not_before_sec := 0,
        partitions := [⟨3, ⟨"part-000"⟩, 4, ⟨0⟩⟩],
        spec := ⟨"acme/clicks", [], "/u", "", ""⟩,
        uuid_ptr := ⟨"/u"⟩, value_schema := ⟨"v"⟩ } 0
      ⟨3, ⟨"part-000"⟩, 4, ⟨0⟩⟩ rfl).1.2
      { fragments := [{ spec := some ⟨3, 10, 7⟩ }] }
      ⟨3, 10, 7⟩ rfl rfl (by decide) (by decide),
    (c4_sentinel_newest_and_literal
      { journal_client := fun _ =>
          Except.ok { fragments := [{ spec := some ⟨3, 10, 7⟩ }] },
        key_ptr := [], key_schema := ⟨"k"⟩, not_before_sec := 0,
        partitions := [⟨3, ⟨"part-000"⟩, 4, ⟨0⟩⟩],
        spec := ⟨"acme/clicks", [], "/u", "", ""⟩,
        uuid_ptr := ⟨"/u"⟩, value_schema := ⟨"v"⟩ } 0
      ⟨3, ⟨"part-000"⟩, 4, ⟨0⟩⟩ rfl).2 1234
      { fragments := [{ spec := some ⟨3, 10, 7⟩ }] }
      ⟨3, 10, 7⟩ (by decide) (by decide) rfl rfl⟩

/-- Claim C8: a non-sentinel millisecond timestamp whose seconds value is
below the collection's `not_before` floor behaves exactly like requesting
the floor itself, and the fragment-search floor used is `not_before` in
seconds. -/
theorem c8_literal_clamped_to_floor (c : Collection) (partition_index : Nat)
    (timestamp_millis : Int)
    (h1 : timestamp_millis ≠ -1) (h2 : timestamp_millis ≠ -2)
    (hnb : 0 ≤ u64_as_i64 c.not_before_sec)
    (hlt : Int.tdiv timestamp_millis 1000 < u64_as_i64 c.not_before_sec) :
    begin_mod_time_of (u64_as_i64 c.not_before_sec) timestamp_millis =
      u64_as_i64 c.not_before_sec ∧
    fetch_partition_offset c partition_index timestamp_millis =
      fetch_partition_offset c partition_index
        (u64_as_i64 c.not_before_sec * 1000) := by
  have hbmt : begin_mod_time_of (u64_as_i64 c.not_before_sec)
      timestamp_millis = u64_as_i64 c.not_before_sec := by
    simp only [begin_mod_time_of, if_neg h1, if_neg h2, if_pos hlt]
  have hge : 0 ≤ u64_as_i64 c.not_before_sec * 1000 :=
    mul_nonneg hnb (by norm_num)
  have hne1 : u64_as_i64 c.not_before_sec * 1000 ≠ -1 := by omega
  have hne2 : u64_as_i64 c.not_before_sec * 1000 ≠ -2 := by omega
  have htd : Int.tdiv (u64_as_i64 c.not_before_sec * 1000) 1000 =
      u64_as_i64 c.not_before_sec :=
    Int.mul_tdiv_cancel _ (by norm_num)
  have hbmt' : begin_mod_time_of (u64_as_i64 c.not_before_sec)
      (u64_as_i64 c.not_before_sec * 1000) = u64_as_i64 c.not_before_sec := by
    simp only [begin_mod_time_of, if_neg hne1, if_neg hne2, htd,
      if_neg (lt_irrefl _)]
  exact ⟨hbmt, fetch_partition_offset_congr c partition_index h1 hne1
    (hbmt.trans hbmt'.symm)⟩

/-- Witness for C8: requesting 50000 ms (50 s) against a floor of 100 s
uses floor 100 and answers exactly like requesting 100000 ms. -/
theorem c8_literal_clamped_to_floor_witness :
    begin_mod_time_of (u64_as_i64 100) 50000 = u64_as_i64 100 ∧
    fetch_partition_offset
      { journal_client := fun _ =>
          Except.ok { fragments := [{ spec := some ⟨3, 10, 120⟩ }] },
        key_ptr := [], key_schema := ⟨"k"⟩, not_before_sec := 100,
        partitions := [⟨3, ⟨"part-000"⟩, 4, ⟨0⟩⟩],
        spec := ⟨"acme/clicks", [], "/u", "", ""⟩,
        uuid_ptr := ⟨"/u"⟩, value_schema := ⟨"v"⟩ } 0 50000 =
    fetch_partition_offset
      { journal_client := fun _ =>
          Except.ok { fragments := [{ spec := some ⟨3, 10, 120⟩ }] },
        key_ptr := [], key_schema := ⟨"k"⟩, not_before_sec := 100,
        partitions := [⟨3, ⟨"part-000"⟩, 4, ⟨0⟩⟩],
        spec := ⟨"acme/clicks", [], "/u", "", ""⟩,
        uuid_ptr := ⟨"/u"⟩, value_schema := ⟨"v"⟩ } 0
      (u64_as_i64 100 * 1000) :=
  c8_literal_clamped_to_floor
    { journal_client := fun _ =>
          Except.ok { fragments := [{ spec := some ⟨3, 10, 120⟩ }] },
        key_ptr := [], key_schema := ⟨"k"⟩, not_before_sec := 100,
        partitions := [⟨3, ⟨"part-000"⟩, 4, ⟨0⟩⟩],
        spec := ⟨"acme/clicks", [], "/u", "", ""⟩,
        uuid_ptr := ⟨"/u"⟩, value_schema := ⟨"v"⟩ }
    0 50000 (by decide) (by decide) (by decide) (by decide)

/-- Claim C9: an empty fragment page on an in-range partition yields
`Ok(Some((0, 0)))` — an empty-partition default, not an error. -/
theorem c9_empty_fragment_page (c : Collection) (partition_index : Nat)
    (p : Partition) (timestamp_millis : Int)
    (hp : c.partitions[partition_index]? = some p)
    (hresp : c.journal_client
        { journal := p.spec.name,
          begin_mod_time :=
            begin_mod_time_of (u64_as_i64 c.not_before_sec) timestamp_millis,
          page_limit := 1 } = Except.ok { fragments := [] }) :
    fetch_partition_offset c partition_index timestamp_millis =
      Except.ok (some (0, 0)) := by
  simp only [fetch_partition_offset, hp, hresp]
  rfl

/-- Witness for C9: an empty broker page at index 0 yields `(0, 0)`. -/
theorem c9_empty_fragment_page_witness :
    fetch_partition_offset
      { journal_client := fun _ => Except.ok { fragments := [] },
        key_ptr := [], key_schema := ⟨"k"⟩, not_before_sec := 0,
        partitions := [⟨3, ⟨"part-000"⟩, 4, ⟨0⟩⟩],
        spec := ⟨"acme/clicks", [], "/u", "", ""⟩,
        uuid_ptr := ⟨"/u"⟩, value_schema := ⟨"v"⟩ } 0 777 =
      Except.ok (some (0, 0)) :=
  c9_empty_fragment_page
    { journal_client := fun _ => Except.ok { fragments := [] },
      key_ptr := [], key_schema := ⟨"k"⟩, not_before_sec := 0,
      partitions := [⟨3, ⟨"part-000"⟩, 4, ⟨0⟩⟩],
      spec := ⟨"acme/clicks", [], "/u", "", ""⟩,
      uuid_ptr := ⟨"/u"⟩, value_schema := ⟨"v"⟩ }
    0 ⟨3, ⟨"part-000"⟩, 4, ⟨0⟩⟩ 777 rfl rfl

/-! ### Missing spec/route during enumeration is an error -/

theorem collect_partitions_missing {js : List ListedJournal}
    {j : ListedJournal} (hmem : j ∈ js)
    (hbad : j.spec = none ∨ j.route = none) :
    ∃ e, collect_partitions js = Except.error e := by
  induction js with
  | nil => cases hmem
  | cons a as ih =>
    rcases hja : journal_to_partition a with e | p
    · exact ⟨e, by simp [collect_partitions, hja]⟩
    · rcases List.mem_cons.mp hmem with rfl | hmem'
      · exfalso
        rcases hbad with hb | hb
        · simp [journal_to_partition, hb] at hja
        · rcases hs : j.spec with _ | sp
          · simp [journal_to_partition, hs] at hja
          · simp [journal_to_partition, hs, hb] at hja
      · obtain ⟨e, he⟩ := ih hmem'
        exact ⟨e, by simp [collect_partitions, hja, he]⟩

theorem fetch_partitions_missing {js : List ListedJournal}
    {j : ListedJournal} (hmem : j ∈ js)
    (hbad : j.spec = none ∨ j.route = none) :
    ∃ e, fetch_partitions js = Except.error e := by
  obtain ⟨e, he⟩ := collect_partitions_missing hmem hbad
  exact ⟨e, by simp [fetch_partitions, he]⟩

/-- Claim C10: a first fragment whose embedded spec is absent is treated
by `fetch_partition_offset` exactly like an empty page — `Ok(Some((0, 0)))`,
not a data-integrity error — whereas in partition enumeration a journal
missing its spec or route is an error. -/
theorem c10_specless_fragment_defaults :
    (∀ (c : Collection) (partition_index : Nat) (p : Partition)
        (timestamp_millis : Int) (resp : FragmentsResponse)
        (f : FragmentListing),
      c.partitions[partition_index]? = some p →
      c.journal_client
          { journal := p.spec.name,
            begin_mod_time :=
              begin_mod_time_of (u64_as_i64 c.not_before_sec)
                timestamp_millis,
            page_limit := 1 } = Except.ok resp →
      resp.fragments.head? = some f → f.spec = none →
      fetch_partition_offset c partition_index timestamp_millis =
        Except.ok (some (0, 0))) ∧
    (∀ (js : List ListedJournal) (j : ListedJournal), j ∈ js →
      j.spec = none ∨ j.route = none →
      ∃ e, fetch_partitions js = Except.error e) := by
  constructor
  · intro c partition_index p timestamp_millis resp f hp hresp hhead hspec
    rcases f with ⟨fs⟩
    obtain rfl : fs = none := hspec
    simp only [fetch_partition_offset, hp, hresp, hhead]
  · intro js j hmem hbad
    exact fetch_partitions_missing hmem hbad

/-- Witness for C10: a spec-less first fragment yields `(0, 0)`, and a
spec-less journal fails enumeration. -/
theorem c10_specless_fragment_defaults_witness :
    fetch_partition_offset
      { journal_client := fun _ =>
          Except.ok { fragments := [{ spec := none }] },
        key_ptr := [], key_schema := ⟨"k"⟩, not_before_sec := 0,
        partitions := [⟨3, ⟨"part-000"⟩, 4, ⟨0⟩⟩],
        spec := ⟨"acme/clicks", [], "/u", "", ""⟩,
        uuid_ptr := ⟨"/u"⟩, value_schema := ⟨"v"⟩ } 0 5000 =
      Except.ok (some (0, 0)) ∧
    (∃ e, fetch_partitions [⟨none, 5, 1, some ⟨0⟩⟩] = Except.error e) :=
  ⟨c10_specless_fragment_defaults.1
      { journal_client := fun _ =>
          Except.ok { fragments := [{ spec := none }] },
        key_ptr := [], key_schema := ⟨"k"⟩, not_before_sec := 0,
        partitions := [⟨3, ⟨"part-000"⟩, 4, ⟨0⟩⟩],
        spec := ⟨"acme/clicks", [], "/u", "", ""⟩,
        uuid_ptr := ⟨"/u"⟩, value_schema := ⟨"v"⟩ }
      0 ⟨3, ⟨"part-000"⟩, 4, ⟨0⟩⟩ 5000
      { fragments := [{ spec := none }] } { spec := none } rfl rfl rfl rfl,
    c10_specless_fragment_defaults.2 [⟨none, 5, 1, some ⟨0⟩⟩]
      ⟨none, 5, 1, some ⟨0⟩⟩ (List.mem_singleton_self _) (Or.inl rfl)⟩

/-- Claim C2: `registered_schema_id` is content-addressed — two successive
calls with content-equal schemas (equal canonical form, any catalog names)
return the same registry ID with the second call never inserting; a call
inserts only when the digest lookup finds no row, a fresh schema getting
the store's newly assigned ID; so registering a never-before-seen schema
twice performs exactly one insert in total. -/
theorem c2_schema_content_addressing
    (digest : String → String) (store : SchemaRegistry)
    (catalog₁ catalog₂ : String) (s₁ s₂ : AvroSchema)
    (hcanon : s₁.canonical_form = s₂.canonical_form) :
    (registered_schema_id digest
        (registered_schema_id digest store catalog₁ s₁).store catalog₂
        s₂).registry_id =
      (registered_schema_id digest store catalog₁ s₁).registry_id ∧
    (registered_schema_id digest
        (registered_schema_id digest store catalog₁ s₁).store catalog₂
        s₂).inserts = 0 ∧
    ((∀ r ∈ store.rows, r.avro_schema_md5 ≠ digest s₁.canonical_form) →
      (registered_schema_id digest store catalog₁ s₁).inserts = 1 ∧
      (registered_schema_id digest store catalog₁ s₁).registry_id =
        store.next_registry_id) ∧
    ((∃ r ∈ store.rows, r.avro_schema_md5 = digest s₁.canonical_form) →
      (registered_schema_id digest store catalog₁ s₁).inserts = 0) := by
  have hds : digest s₂.canonical_form = digest s₁.canonical_form := by
    rw [hcanon]
  rcases hl : (store.rows.filter
      (fun r => r.avro_schema_md5 == digest s₁.canonical_form)).getLast?
    with _ | row
  · have hempty := List.getLast?_eq_none_iff.mp hl
    have h1 : registered_schema_id digest store catalog₁ s₁ =
        ⟨store.next_registry_id,
         ⟨store.rows ++
            ([⟨digest s₁.canonical_form, store.next_registry_id, catalog₁⟩] :
              List RegisteredSchemaRow),
          store.next_registry_id + 1⟩,
         1⟩ := by
      simp only [registered_schema_id, hl]
    have hfl : ((store.rows ++
        ([⟨digest s₁.canonical_form, store.next_registry_id, catalog₁⟩] :
          List RegisteredSchemaRow)).filter
          (fun r => r.avro_schema_md5 == digest s₁.canonical_form)) =
        [(⟨digest s₁.canonical_form, store.next_registry_id, catalog₁⟩ :
          RegisteredSchemaRow)] := by
      rw [List.filter_append, hempty]
      simp
    refine ⟨?_, ?_, ?_, ?_⟩
    · rw [h1]
      simp only [registered_schema_id, hds, hfl, List.getLast?_singleton]
    · rw [h1]
      simp only [registered_schema_id, hds, hfl, List.getLast?_singleton]
    · intro _
      rw [h1]
      exact ⟨rfl, rfl⟩
    · rintro ⟨r, hr, hmd⟩
      exfalso
      have hrf : r ∈ store.rows.filter
          (fun x => x.avro_schema_md5 == digest s₁.canonical_form) :=
        List.mem_filter.mpr ⟨hr, by simp [hmd]⟩
      rw [hempty] at hrf
      exact List.not_mem_nil r hrf
  · have h1 : registered_schema_id digest store catalog₁ s₁ =
        ⟨row.registry_id, store, 0⟩ := by
      simp only [registered_schema_id, hl]
    refine ⟨?_, ?_, ?_, ?_⟩
    · rw [h1]
      simp only [registered_schema_id, hds, hl]
    · rw [h1]
      simp only [registered_schema_id, hds, hl]
    · intro hforall
      exfalso
      obtain ⟨ys, hys⟩ := List.getLast?_eq_some_iff.mp hl
      have hrowmem : row ∈ store.rows.filter
          (fun r => r.avro_schema_md5 == digest s₁.canonical_form) := by
        rw [hys]
        exact List.mem_append_right _ (List.mem_singleton_self _)
      have hm := List.mem_filter.mp hrowmem
      exact hforall row hm.1 (by simpa using hm.2)
    · intro _
      rw [h1]

/-- Witness for C2: registering canonical form `"schema-a"` twice against
an empty store with next ID 7, under two catalog names: both calls yield
ID 7, the first inserts once, the second not at all. -/
theorem c2_schema_content_addressing_witness :
    (registered_schema_id (fun s => s)
        (registered_schema_id (fun s => s) ⟨[], 7⟩ "acme/clicks"
          ⟨"schema-a"⟩).store "other/names" ⟨"schema-a"⟩).registry_id =
      (registered_schema_id (fun s => s) ⟨[], 7⟩ "acme/clicks"
        ⟨"schema-a"⟩).registry_id ∧
    (registered_schema_id (fun s => s)
        (registered_schema_id (fun s => s) ⟨[], 7⟩ "acme/clicks"
          ⟨"schema-a"⟩).store "other/names" ⟨"schema-a"⟩).inserts = 0 ∧
    (registered_schema_id (fun s => s) ⟨[], 7⟩ "acme/clicks"
      ⟨"schema-a"⟩).inserts = 1 ∧
    (registered_schema_id (fun s => s) ⟨[], 7⟩ "acme/clicks"
      ⟨"schema-a"⟩).registry_id = 7 := by
  have h := c2_schema_content_addressing (fun s => s) ⟨[], 7⟩ "acme/clicks"
    "other/names" ⟨"schema-a"⟩ ⟨"schema-a"⟩ rfl
  exact ⟨h.1, h.2.1, (h.2.2.1 (by simp)).1, (h.2.2.1 (by simp)).2⟩

end Dekaf
